import Mathlib

/-!
Verification development for the FreeSurfaceHydrodynamics library
(class FS_HydroDynamics, declared in src/include/FS_Hydrodynamics.hpp).
The repository ships only the class declaration in src/; the member
function bodies (FS_Hydrodynamics.cpp) are not present under src/, so the
operations below are modelled from the specification document, while the
default member values are taken directly from the header.  Numeric values
(C++ double) are idealised as exact rationals for the evaluator and
hydrostatics, and as real numbers for the Fourier-type kernel transforms.
-/

namespace FSHydro

/-- Modelled from the spec: the history buffers (m_xddot per DOF, _eta0 for
wave elevation) are viewed newest-first as lists; a sample k steps in the
past that is not stored (startup transient) reads as zero.  hGet hist k is
the sample k steps in the past. -/
def hGet {α : Type} [CommRing α] (hist : List α) (k : ℕ) : α :=
  hist.getD k 0

/-- Modelled from the spec: the discrete causal convolution sum performed by
the Convolution Force Evaluator, sum over k below the kernel truncation
length of kernel[k] * history[k] * dt (FS_Hydrodynamics.cpp is absent from
src/; this follows spec sections 4.2 and the glossary entry for
convolution). -/
def convSum {α : Type} [CommRing α] (kernel hist : List α) (dt : α) : α :=
  ((List.range kernel.length).map fun k => kernel.getD k 0 * hGet hist k * dt).sum

/-- Modelled from the spec: RadiationForce, radiation force_i =
- sum over j of the convolution of kernel_ij against the acceleration
history of DOF j (Cummins sign convention, spec section 4.2). -/
def RadiationForce {α : Type} [CommRing α] (kernels : Fin 6 → Fin 6 → List α)
    (m_xddot : Fin 6 → List α) (dt : α) : Fin 6 → α :=
  fun i => -(∑ j : Fin 6, convSum (kernels i j) (m_xddot j) dt)

/-- Modelled from the spec: ExcitingForce, exciting force_i = convolution of
the per-DOF exciting kernel against the wave-elevation history _eta0
(spec section 4.2). -/
def ExcitingForce {α : Type} [CommRing α] (kernels : Fin 6 → List α)
    (_eta0 : List α) (dt : α) : Fin 6 → α :=
  fun i => convSum (kernels i) _eta0 dt

section ConvLemmas

variable {α : Type} [CommRing α]

theorem hGet_append_replicate_zero (hist : List α) (m k : ℕ) :
    hGet (hist ++ List.replicate m (0 : α)) k = hGet hist k := by
  unfold hGet
  rcases lt_or_le k hist.length with hk | hk
  · rw [List.getD_eq_getElem?_getD, List.getD_eq_getElem?_getD,
      List.getElem?_append_left hk]
  · rw [List.getD_eq_getElem?_getD, List.getD_eq_getElem?_getD,
      List.getElem?_append_right hk]
    rcases lt_or_le (k - hist.length) m with hkm | hkm
    · simp [List.getElem?_replicate, hkm, List.getElem?_eq_none hk]
    · simp [List.getElem?_replicate, Nat.not_lt.mpr hkm, List.getElem?_eq_none hk]

theorem convSum_append_replicate_zero (kernel hist : List α) (m : ℕ) (dt : α) :
    convSum kernel (hist ++ List.replicate m (0 : α)) dt = convSum kernel hist dt := by
  unfold convSum
  exact congrArg List.sum (List.map_congr_left fun k _ => by
    rw [hGet_append_replicate_zero])

theorem hGet_eq_zero_of_all_zero (hist : List α) (hz : ∀ a ∈ hist, a = (0 : α)) (k : ℕ) :
    hGet hist k = 0 := by
  unfold hGet
  rcases lt_or_le k hist.length with hk | hk
  · rw [List.getD_eq_getElem?_getD, List.getElem?_eq_getElem hk]
    exact hz _ (List.getElem_mem hk)
  · rw [List.getD_eq_getElem?_getD, List.getElem?_eq_none hk]
    rfl

theorem convSum_zero_hist (kernel hist : List α) (hz : ∀ a ∈ hist, a = (0 : α)) (dt : α) :
    convSum kernel hist dt = 0 := by
  unfold convSum
  rw [List.sum_eq_zero]
  intro x hx
  rcases List.mem_map.mp hx with ⟨k, _, hk⟩
  rw [← hk, hGet_eq_zero_of_all_zero hist hz, mul_zero, zero_mul]

theorem hGet_take (hist : List α) (N k : ℕ) (hk : k < N) :
    hGet (hist.take N) k = hGet hist k := by
  unfold hGet
  rw [List.getD_eq_getElem?_getD, List.getD_eq_getElem?_getD,
    List.getElem?_take_of_lt hk]

theorem convSum_take_agree (kernel : List α) (N : ℕ) (hlen : kernel.length ≤ N)
    (h1 h2 : List α) (hagree : h1.take N = h2.take N) (dt : α) :
    convSum kernel h1 dt = convSum kernel h2 dt := by
  unfold convSum
  refine congrArg List.sum (List.map_congr_left fun k hk => ?_)
  have hkN : k < N := lt_of_lt_of_le (List.mem_range.mp hk) hlen
  rw [← hGet_take h1 N k hkN, ← hGet_take h2 N k hkN, hagree]

end ConvLemmas

/-- C3: during the startup transient, when the history buffers hold fewer
valid samples than the kernel length, RadiationForce and ExcitingForce treat
each missing history sample as a zero contribution to the convolution sum
and do not signal an error: extending any history by zero samples (the
cold-start zero fill) leaves both forces unchanged, and both evaluators are
total functions with no error channel. -/
theorem C3_startup_missing_history_is_zero
    (radK : Fin 6 → Fin 6 → List ℚ) (excK : Fin 6 → List ℚ)
    (m_xddot : Fin 6 → List ℚ) (pad : Fin 6 → ℕ)
    (eta : List ℚ) (padE : ℕ) (dt : ℚ) (i : Fin 6) :
    RadiationForce radK (fun j => m_xddot j ++ List.replicate (pad j) 0) dt i =
        RadiationForce radK m_xddot dt i ∧
      ExcitingForce excK (eta ++ List.replicate padE 0) dt i =
        ExcitingForce excK eta dt i := by
  constructor
  · unfold RadiationForce
    congr 1
    exact Finset.sum_congr rfl fun j _ => convSum_append_replicate_zero _ _ _ _
  · exact convSum_append_replicate_zero _ _ _ _

/-- C4: if every stored acceleration history sample (all 6 DOFs) is zero,
RadiationForce is the zero vector, and if every stored wave-elevation
history sample is zero, ExcitingForce is the zero vector. -/
theorem C4_zero_history_zero_force
    (radK : Fin 6 → Fin 6 → List ℚ) (excK : Fin 6 → List ℚ)
    (m_xddot : Fin 6 → List ℚ) (eta : List ℚ) (dt : ℚ) (i : Fin 6)
    (hz : ∀ j : Fin 6, ∀ a ∈ m_xddot j, a = (0 : ℚ))
    (he : ∀ a ∈ eta, a = (0 : ℚ)) :
    RadiationForce radK m_xddot dt i = 0 ∧ ExcitingForce excK eta dt i = 0 := by
  constructor
  · unfold RadiationForce
    rw [Finset.sum_eq_zero fun j _ => convSum_zero_hist _ _ (hz j) _, neg_zero]
  · exact convSum_zero_hist _ _ he _

/-- C4 witness: concrete kernels with an all-zero two-sample history give the
zero radiation and exciting forces. -/
theorem C4_zero_history_zero_force_witness :
    RadiationForce (fun _ _ => [(1 : ℚ), 2, 3]) (fun _ => [0, 0]) 1 0 = 0 ∧
      ExcitingForce (fun _ => [(5 : ℚ), 7]) [0, 0] 1 0 = 0 :=
  C4_zero_history_zero_force (fun _ _ => [(1 : ℚ), 2, 3]) (fun _ => [(5 : ℚ), 7])
    (fun _ => [0, 0]) [0, 0] 1 0 (by decide) (by decide)

/-- C5: for histories that agree on the most recent N samples, N at least
every kernel truncation length fixed at build time, RadiationForce and
ExcitingForce return identical force vectors: the convolution is insensitive
to history samples older than N steps. -/
theorem C5_truncation_locality
    (radK : Fin 6 → Fin 6 → List ℚ) (excK : Fin 6 → List ℚ) (N : ℕ)
    (h1 h2 : Fin 6 → List ℚ) (e1 e2 : List ℚ) (dt : ℚ) (i : Fin 6)
    (hlenR : ∀ i j : Fin 6, (radK i j).length ≤ N)
    (hlenE : ∀ j : Fin 6, (excK j).length ≤ N)
    (hagree : ∀ j : Fin 6, (h1 j).take N = (h2 j).take N)
    (heagree : e1.take N = e2.take N) :
    RadiationForce radK h1 dt i = RadiationForce radK h2 dt i ∧
      ExcitingForce excK e1 dt i = ExcitingForce excK e2 dt i := by
  constructor
  · unfold RadiationForce
    congr 1
    exact Finset.sum_congr rfl fun j _ =>
      convSum_take_agree _ N (hlenR i j) _ _ (hagree j) dt
  · exact convSum_take_agree _ N (hlenE i) _ _ heagree dt

/-- C5 witness: two histories agreeing on their two most recent samples but
differing at older samples give identical forces for kernels of length at
most two. -/
theorem C5_truncation_locality_witness :
    RadiationForce (fun _ _ => [(1 : ℚ), 2]) (fun _ => [4, 5, 6]) 1 0 =
        RadiationForce (fun _ _ => [(1 : ℚ), 2]) (fun _ => [4, 5, 99]) 1 0 ∧
      ExcitingForce (fun _ => [(3 : ℚ)]) [7, 8, 9] 1 0 =
        ExcitingForce (fun _ => [(3 : ℚ)]) [7, 8, 99] 1 0 :=
  C5_truncation_locality (fun _ _ => [(1 : ℚ), 2]) (fun _ => [(3 : ℚ)]) 2
    (fun _ => [4, 5, 6]) (fun _ => [4, 5, 99]) [7, 8, 9] [7, 8, 99] 1 0
    (by decide) (by decide) (by decide) (by decide)

/-- Modelled from the spec: the trapezoid rule over a list of
(abscissa, ordinate) samples, sum over adjacent sample pairs of
(x2 - x1) * (y1 + y2) / 2; the numerical frequency integration used by the
Impulse-Response Builder (spec section 4.1). -/
def trapezoid {α : Type} [Field α] : List (α × α) → α
  | [] => 0
  | [_] => 0
  | p :: q :: rest => (q.1 - p.1) * (p.2 + q.2) / 2 + trapezoid (q :: rest)

/-- Modelled from the spec: one sample of the radiation impulse-response
kernel stored in m_IR_cosint (FS_Hydrodynamics.cpp is absent from src/):
the trapezoidal evaluation of (2/pi) * integral over the sampled frequency
grid of (B_ij(omega) - B_ij(infinity)) * cos(omega * tau); samples is the
list of (omega, B_ij(omega)) pairs and Binf is fd_B_inf_freq(i,j). -/
noncomputable def radCosTransform (samples : List (ℝ × ℝ)) (Binf tau : ℝ) : ℝ :=
  (2 / Real.pi) * trapezoid (samples.map fun p => (p.1, (p.2 - Binf) * Real.cos (p.1 * tau)))

/-- Modelled from the spec: one sample of the alternate radiation kernel
stored in m_IR_sinint, derived from the added-mass curve by the
sine-transform relation; samples is the list of (omega, A_ij(omega)) pairs
and Ainf is fd_A_inf_freq(i,j).  Kept for completeness: its agreement with
radCosTransform is a property of the input tables, not of the builder. -/
noncomputable def radSinTransform (samples : List (ℝ × ℝ)) (Ainf tau : ℝ) : ℝ :=
  -(2 / Real.pi) *
    trapezoid (samples.map fun p => (p.1, p.1 * (p.2 - Ainf) * Real.sin (p.1 * tau)))

/-- Spec-side formula for C1, written as the explicit trapezoidal-style sum
over adjacent frequency pairs of the damping curve with its
infinite-frequency asymptote subtracted, weighted by cos(omega * tau):
sum of (w2 - w1) * ((B(w1) - Binf) cos(w1 tau) + (B(w2) - Binf) cos(w2 tau)) / 2. -/
noncomputable def radSpecCosSum (samples : List (ℝ × ℝ)) (Binf tau : ℝ) : ℝ :=
  match samples with
  | [] => 0
  | [_] => 0
  | p :: q :: rest =>
      (q.1 - p.1) *
          ((p.2 - Binf) * Real.cos (p.1 * tau) + (q.2 - Binf) * Real.cos (q.1 * tau)) / 2
        + radSpecCosSum (q :: rest) Binf tau

theorem trapezoid_cos_map (Binf tau : ℝ) :
    ∀ samples : List (ℝ × ℝ),
      trapezoid (samples.map fun p => (p.1, (p.2 - Binf) * Real.cos (p.1 * tau))) =
        radSpecCosSum samples Binf tau
  | [] => rfl
  | [_] => rfl
  | p :: q :: rest => by
    have ih := trapezoid_cos_map Binf tau (q :: rest)
    simp only [List.map_cons, trapezoid, radSpecCosSum] at ih ⊢
    rw [ih]

/-- Modelled from the spec: one sample of the per-DOF wave-exciting
impulse-response kernel m_IR_exc, the real inverse Fourier transform of the
complex exciting-force transfer function over the conjugate-symmetric
extension, evaluated by the trapezoid rule; samples is the list of
(omega, Re Chi(omega), Im Chi(omega)) triples. -/
noncomputable def excTransform (samples : List (ℝ × ℝ × ℝ)) (tau : ℝ) : ℝ :=
  (1 / Real.pi) *
    trapezoid (samples.map fun t =>
      (t.1, t.2.1 * Real.cos (t.1 * tau) - t.2.2 * Real.sin (t.1 * tau)))

/-- Modelled from the spec: the radiation kernel list for one DOF pair,
sampled on the lag grid tau = k * dt for k below the truncation length n. -/
noncomputable def buildRadKernel (omegas Bvals : List ℚ) (Binf dt : ℚ) (n : ℕ) : List ℝ :=
  (List.range n).map fun (k : ℕ) =>
    radCosTransform ((omegas.zip Bvals).map fun p => ((p.1 : ℝ), (p.2 : ℝ)))
      (Binf : ℝ) ((k : ℝ) * (dt : ℝ))

/-- Modelled from the spec: the exciting kernel list for one DOF, sampled on
the lag grid tau = k * dt for k below the truncation length n. -/
noncomputable def buildExcKernel (omegas re im : List ℚ) (dt : ℚ) (n : ℕ) : List ℝ :=
  (List.range n).map fun (k : ℕ) =>
    excTransform ((omegas.zip (re.zip im)).map fun t => ((t.1 : ℝ), (t.2.1 : ℝ), (t.2.2 : ℝ)))
      ((k : ℝ) * (dt : ℝ))

/-- State of an FS_HydroDynamics object: the fields of the class in
src/include/FS_Hydrodynamics.hpp that the claims concern.  Frequency-domain
tables and scalar configuration are exact rationals, kernels are real lists;
fd_B i j is the damping curve B_ij sampled along fd_am_dmp_omega, n_lag is
the lag-grid length (the size of m_tau_rad chosen at build time), and the
history buffers are newest-first lists. -/
structure HydroState where
  m_L : ℚ
  m_grav : ℚ
  m_rho : ℚ
  m_gam : ℚ
  fd_am_dmp_omega : List ℚ
  fd_B : Fin 6 → Fin 6 → List ℚ
  fd_B_inf_freq : Fin 6 → Fin 6 → ℚ
  fd_Re_Chi : Fin 6 → List ℚ
  fd_Im_Chi : Fin 6 → List ℚ
  n_lag : ℕ
  m_dt : ℚ
  m_IR_cosint : Fin 6 → Fin 6 → List ℝ
  m_IR_exc : Fin 6 → List ℝ
  m_xddot : Fin 6 → List ℚ
  _eta0 : List ℚ
  _rad_tstep_index : ℕ
  _exc_tstep_index : ℕ
  _n_rad_intpts : ℕ
  _n_exc_intpts : ℕ

/-- A freshly constructed FS_HydroDynamics object: the default member values
are the in-class member initializers of FS_Hydrodynamics.hpp (m_L = 1,
m_grav = 9.81, m_rho = 1025, m_gam = 0.15, m_dt = 0, the four history
cursors and kernel lengths 0); the Eigen vectors default-construct with
length zero, modelled as empty lists, and no tables are loaded yet. -/
def initialHydroState : HydroState where
  m_L := 1
  m_grav := 981 / 100
  m_rho := 1025
  m_gam := 3 / 20
  fd_am_dmp_omega := []
  fd_B := fun _ _ => []
  fd_B_inf_freq := fun _ _ => 0
  fd_Re_Chi := fun _ => []
  fd_Im_Chi := fun _ => []
  n_lag := 0
  m_dt := 0
  m_IR_cosint := fun _ _ => []
  m_IR_exc := fun _ => []
  m_xddot := fun _ => []
  _eta0 := []
  _rad_tstep_index := 0
  _exc_tstep_index := 0
  _n_rad_intpts := 0
  _n_exc_intpts := 0

/-- Modelled from the spec: the successful branch of SetTimestepSize
(FS_Hydrodynamics.cpp absent from src/): store the timestep, regenerate all
36 radiation kernels and 6 exciting kernels from the frequency-domain
tables on the lag grid, reset the history buffers and cursors, and record
the kernel lengths that size the convolution (spec sections 4.1 and 6). -/
noncomputable def buildStep (st : HydroState) (dt : ℚ) : HydroState :=
  { st with
    m_dt := dt
    m_IR_cosint := fun i j =>
      buildRadKernel st.fd_am_dmp_omega (st.fd_B i j) (st.fd_B_inf_freq i j) dt st.n_lag
    m_IR_exc := fun j =>
      buildExcKernel st.fd_am_dmp_omega (st.fd_Re_Chi j) (st.fd_Im_Chi j) dt st.n_lag
    m_xddot := fun _ => []
    _eta0 := []
    _rad_tstep_index := 0
    _exc_tstep_index := 0
    _n_rad_intpts := st.n_lag
    _n_exc_intpts := st.n_lag }

/-- Modelled from the spec: SetTimestepSize validates the configuration and
builds the time-domain kernels; a zero or negative timestep or a
non-increasing frequency grid is a fatal configuration error, modelled as
none, with no partial kernel produced (spec section 7; non-finite values
cannot arise in exact rational arithmetic). -/
noncomputable def SetTimestepSize (st : HydroState) (dt : ℚ) : Option HydroState :=
  if 0 < dt ∧ List.Chain' (fun a b => a < b) st.fd_am_dmp_omega then
    some (buildStep st dt)
  else none

theorem SetTimestepSize_pos (st : HydroState) (dt : ℚ) (hdt : 0 < dt)
    (hgrid : List.Chain' (fun a b => a < b) st.fd_am_dmp_omega) :
    SetTimestepSize st dt = some (buildStep st dt) :=
  if_pos ⟨hdt, hgrid⟩

theorem buildRadKernel_getD (omegas Bvals : List ℚ) (Binf dt : ℚ) (n k : ℕ)
    (hk : k < n) :
    (buildRadKernel omegas Bvals Binf dt n).getD k 0 =
      (2 / Real.pi) *
        radSpecCosSum ((omegas.zip Bvals).map fun p => ((p.1 : ℝ), (p.2 : ℝ)))
          (Binf : ℝ) ((k : ℝ) * (dt : ℝ)) := by
  unfold buildRadKernel
  rw [List.getD_eq_getElem _ _ (by simpa using hk), List.getElem_map,
    List.getElem_range]
  unfold radCosTransform
  rw [trapezoid_cos_map]

/-- C1: for every DOF pair (i, j) and every lag index k on the build grid,
the radiation kernel produced by the Impulse-Response Builder inside
SetTimestepSize equals the trapezoidal-style evaluation of
(2/pi) * integral of (B_ij(omega) - B_ij(infinity)) * cos(omega * tau) over
the sampled frequency grid: the damping curve with its infinite-frequency
asymptote subtracted before integration. -/
theorem C1_radiation_kernel_is_trapezoidal_cosine_transform
    (st st1 : HydroState) (dt : ℚ) (hbuild : SetTimestepSize st dt = some st1)
    (i j : Fin 6) (k : ℕ) (hk : k < st.n_lag) :
    (st1.m_IR_cosint i j).getD k 0 =
      (2 / Real.pi) *
        radSpecCosSum
          ((st.fd_am_dmp_omega.zip (st.fd_B i j)).map fun p => ((p.1 : ℝ), (p.2 : ℝ)))
          ((st.fd_B_inf_freq i j : ℝ)) ((k : ℝ) * (dt : ℝ)) := by
  have hst1 : st1 = buildStep st dt := by
    unfold SetTimestepSize at hbuild
    by_cases hc : 0 < dt ∧ List.Chain' (fun a b => a < b) st.fd_am_dmp_omega
    · rw [if_pos hc] at hbuild
      exact (Option.some_injective _ hbuild).symm
    · rw [if_neg hc] at hbuild
      exact absurd hbuild (by simp)
  subst hst1
  exact buildRadKernel_getD st.fd_am_dmp_omega (st.fd_B i j) (st.fd_B_inf_freq i j)
    dt st.n_lag k hk

/-- C1 witness: a two-point frequency grid with damping samples 1, 2,
asymptote 3, timestep 1 and a single lag point; the built kernel sample at
lag 0 equals the explicit trapezoidal cosine-transform sum. -/
theorem C1_radiation_kernel_witness :
    (((buildStep
        { initialHydroState with
          fd_am_dmp_omega := [0, 1]
          fd_B := fun _ _ => [1, 2]
          fd_B_inf_freq := fun _ _ => 3
          n_lag := 1 } 1).m_IR_cosint 0 0).getD 0 0 =
      (2 / Real.pi) *
        radSpecCosSum
          ((([(0 : ℚ), 1]).zip [(1 : ℚ), 2]).map fun p => ((p.1 : ℝ), (p.2 : ℝ)))
          (((3 : ℚ) : ℝ)) (((0 : ℕ) : ℝ) * ((1 : ℚ) : ℝ))) :=
  C1_radiation_kernel_is_trapezoidal_cosine_transform
    { initialHydroState with
      fd_am_dmp_omega := [0, 1]
      fd_B := fun _ _ => [1, 2]
      fd_B_inf_freq := fun _ _ => 3
      n_lag := 1 }
    (buildStep
      { initialHydroState with
        fd_am_dmp_omega := [0, 1]
        fd_B := fun _ _ => [1, 2]
        fd_B_inf_freq := fun _ _ => 3
        n_lag := 1 } 1) 1
    (SetTimestepSize_pos _ 1 (by norm_num) (by simp [List.chain'_cons])) 0 0 0
    (by norm_num [initialHydroState])

/-- C8: a zero or negative timestep, or a non-increasing frequency grid, is
a fatal configuration error: SetTimestepSize aborts kernel construction and
produces no partial impulse-response kernel or history-buffer sizing
(result none). -/
theorem C8_invalid_configuration_aborts
    (st : HydroState) (dt : ℚ)
    (hbad : dt ≤ 0 ∨ ¬ List.Chain' (fun a b => a < b) st.fd_am_dmp_omega) :
    SetTimestepSize st dt = none := by
  unfold SetTimestepSize
  rw [if_neg]
  rintro ⟨hdt, hgrid⟩
  rcases hbad with h | h
  · exact absurd hdt (not_lt.mpr h)
  · exact h hgrid

/-- C8 witness: a freshly constructed object given timestep 0 yields no
kernel. -/
theorem C8_invalid_configuration_witness :
    (0 : ℚ) ≤ 0 ∧ SetTimestepSize initialHydroState 0 = none :=
  ⟨by decide, C8_invalid_configuration_aborts initialHydroState 0 (Or.inl (by decide))⟩

/-- C9: kernel construction is deterministic in its inputs: for a valid
timestep and frequency grid, SetTimestepSize succeeds and produces
buildStep st dt, and rebuilding from that state with the same dt reproduces
exactly the same state, so the radiation and exciting kernels are
bit-for-bit identical across the two builds. -/
theorem C9_rebuild_is_deterministic
    (st : HydroState) (dt : ℚ) (hdt : 0 < dt)
    (hgrid : List.Chain' (fun a b => a < b) st.fd_am_dmp_omega) :
    SetTimestepSize st dt = some (buildStep st dt) ∧
      SetTimestepSize (buildStep st dt) dt = some (buildStep st dt) := by
  refine ⟨SetTimestepSize_pos st dt hdt hgrid, ?_⟩
  have h2 : SetTimestepSize (buildStep st dt) dt =
      some (buildStep (buildStep st dt) dt) :=
    SetTimestepSize_pos (buildStep st dt) dt hdt hgrid
  rw [h2]
  rfl

/-- C9 witness: a concrete state with grid [0, 1] and timestep 1 builds the
same kernels twice. -/
theorem C9_rebuild_witness :
    SetTimestepSize
        { initialHydroState with fd_am_dmp_omega := [0, 1], n_lag := 2 } 1 =
      some (buildStep
        { initialHydroState with fd_am_dmp_omega := [0, 1], n_lag := 2 } 1) ∧
      SetTimestepSize
          (buildStep
            { initialHydroState with fd_am_dmp_omega := [0, 1], n_lag := 2 } 1) 1 =
        some (buildStep
          { initialHydroState with fd_am_dmp_omega := [0, 1], n_lag := 2 } 1) :=
  C9_rebuild_is_deterministic
    { initialHydroState with fd_am_dmp_omega := [0, 1], n_lag := 2 } 1
    (by norm_num) (by simp [List.chain'_cons])

/-- C10: a freshly constructed FS_HydroDynamics object has m_dt = 0,
m_L = 1, m_grav = 9.81, m_rho = 1025, and history cursors and kernel
lengths _rad_tstep_index = _exc_tstep_index = _n_rad_intpts =
_n_exc_intpts = 0 (the in-class member initializers of the header), so any
convolution evaluation before SetTimestepSize runs over empty kernels and
histories of length zero and returns the zero force vector. -/
theorem C10_fresh_object_defaults :
    initialHydroState.m_dt = 0 ∧
      initialHydroState.m_L = 1 ∧
      initialHydroState.m_grav = 981 / 100 ∧
      initialHydroState.m_rho = 1025 ∧
      initialHydroState._rad_tstep_index = 0 ∧
      initialHydroState._exc_tstep_index = 0 ∧
      initialHydroState._n_rad_intpts = 0 ∧
      initialHydroState._n_exc_intpts = 0 ∧
      (∀ i j : Fin 6, initialHydroState.m_IR_cosint i j = []) ∧
      (∀ j : Fin 6, initialHydroState.m_xddot j = []) ∧
      initialHydroState._eta0 = [] ∧
      (∀ (hist : Fin 6 → List ℝ) (dt : ℝ) (i : Fin 6),
        RadiationForce initialHydroState.m_IR_cosint hist dt i = 0) ∧
      (∀ (eta : List ℝ) (dt : ℝ) (i : Fin 6),
        ExcitingForce initialHydroState.m_IR_exc eta dt i = 0) := by
  refine ⟨rfl, rfl, rfl, rfl, rfl, rfl, rfl, rfl, fun _ _ => rfl, fun _ => rfl, rfl,
    fun hist dt i => ?_, fun eta dt i => ?_⟩
  · simp [RadiationForce, convSum, initialHydroState]
  · simp [ExcitingForce, convSum, initialHydroState]

/-- Hydrostatic configuration of the body: density, gravity, waterplane
area and second moments, submerged volume, mass, and the vertical offsets
of the centers of buoyancy and gravity (fields S, S11, S22, Vol, COB, COG,
m_rho, m_grav of FS_HydroDynamics). -/
structure HydroConfig where
  m_rho : ℚ
  m_grav : ℚ
  S : ℚ
  S11 : ℚ
  S22 : ℚ
  Vol : ℚ
  mass : ℚ
  zB : ℚ
  zG : ℚ

/-- Modelled from the spec: Compute_cij rebuilds the position-dependent
hydrostatic stiffness matrix c from waterplane geometry, submerged volume
and center offsets whenever called (FS_Hydrodynamics.cpp absent from src/):
c33 = rho g S, c44 = rho g (S11 + Vol zB) - m g zG,
c55 = rho g (S22 + Vol zB) - m g zG, remaining entries zero about the
upright equilibrium. -/
def Compute_cij (cfg : HydroConfig) : Matrix (Fin 6) (Fin 6) ℚ :=
  Matrix.of fun i j =>
    if i = 2 ∧ j = 2 then cfg.m_rho * cfg.m_grav * cfg.S
    else if i = 3 ∧ j = 3 then
      cfg.m_rho * cfg.m_grav * (cfg.S11 + cfg.Vol * cfg.zB) - cfg.mass * cfg.m_grav * cfg.zG
    else if i = 4 ∧ j = 4 then
      cfg.m_rho * cfg.m_grav * (cfg.S22 + cfg.Vol * cfg.zB) - cfg.mass * cfg.m_grav * cfg.zG
    else 0

/-- Modelled from the spec: BuoyancyForce, the static buoyancy rho g Vol in
heave plus the position-dependent part -c x with c rebuilt by Compute_cij
(spec section 4.3). -/
def BuoyancyForce (cfg : HydroConfig) (x : Fin 6 → ℚ) : Fin 6 → ℚ :=
  fun i =>
    (if i = 2 then cfg.m_rho * cfg.m_grav * cfg.Vol else 0) - (Compute_cij cfg).mulVec x i

/-- Modelled from the spec: GravityForce, the body weight acting in heave;
purely positional, constant about the upright equilibrium. -/
def GravityForce (cfg : HydroConfig) (_x : Fin 6 → ℚ) : Fin 6 → ℚ :=
  fun i => if i = 2 then -(cfg.mass * cfg.m_grav) else 0

/-- A pure heave displacement of size h. -/
def heaveDisp (h : ℚ) : Fin 6 → ℚ := fun i => if i = 2 then h else 0

/-- C7: about the equilibrium position (Archimedes balance
rho Vol = mass), the hydrostatic restoring contribution, buoyancy plus
gravity, is the zero 6-vector at zero generalized displacement, equals
-c x with c the stiffness matrix rebuilt by Compute_cij for every
displacement, and for every small positive heave displacement its heave
component is negative, opposing the displacement. -/
theorem C7_hydrostatic_restoring_opposes_heave (cfg : HydroConfig)
    (heq : cfg.m_rho * cfg.Vol = cfg.mass)
    (hrho : 0 < cfg.m_rho) (hg : 0 < cfg.m_grav) (hS : 0 < cfg.S)
    (h : ℚ) (hh : 0 < h) :
    (∀ i : Fin 6, BuoyancyForce cfg 0 i + GravityForce cfg 0 i = 0) ∧
      (∀ (x : Fin 6 → ℚ) (i : Fin 6),
        BuoyancyForce cfg x i + GravityForce cfg x i =
          -((Compute_cij cfg).mulVec x i)) ∧
      BuoyancyForce cfg (heaveDisp h) 2 + GravityForce cfg (heaveDisp h) 2 < 0 := by
  have hbal : ∀ i : Fin 6,
      (if i = 2 then cfg.m_rho * cfg.m_grav * cfg.Vol else 0) +
        (if i = 2 then -(cfg.mass * cfg.m_grav) else 0) = 0 := by
    intro i
    by_cases hi : i = 2
    · simp only [hi, if_pos]
      rw [← heq]
      ring
    · simp [hi]
  have hlin : ∀ (x : Fin 6 → ℚ) (i : Fin 6),
      BuoyancyForce cfg x i + GravityForce cfg x i =
        -((Compute_cij cfg).mulVec x i) := by
    intro x i
    unfold BuoyancyForce GravityForce
    have hb := hbal i
    linear_combination hb
  refine ⟨fun i => ?_, hlin, ?_⟩
  · rw [hlin 0 i, Matrix.mulVec_zero]
    rfl
  · rw [hlin (heaveDisp h) 2]
    have hmv : (Compute_cij cfg).mulVec (heaveDisp h) 2 =
        cfg.m_rho * cfg.m_grav * cfg.S * h := by
      simp +decide [Matrix.mulVec, Matrix.dotProduct, Fin.sum_univ_six, Compute_cij,
        heaveDisp]
    rw [hmv]
    have hpos : 0 < cfg.m_rho * cfg.m_grav * cfg.S * h :=
      mul_pos (mul_pos (mul_pos hrho hg) hS) hh
    linarith

/-- C7 witness: a unit-valued configuration in equilibrium and a unit heave
displacement. -/
theorem C7_hydrostatic_restoring_witness :
    (∀ i : Fin 6,
        BuoyancyForce ⟨1, 1, 1, 1, 1, 1, 1, 0, 0⟩ 0 i +
          GravityForce ⟨1, 1, 1, 1, 1, 1, 1, 0, 0⟩ 0 i = 0) ∧
      (∀ (x : Fin 6 → ℚ) (i : Fin 6),
        BuoyancyForce ⟨1, 1, 1, 1, 1, 1, 1, 0, 0⟩ x i +
            GravityForce ⟨1, 1, 1, 1, 1, 1, 1, 0, 0⟩ x i =
          -((Compute_cij ⟨1, 1, 1, 1, 1, 1, 1, 0, 0⟩).mulVec x i)) ∧
      BuoyancyForce ⟨1, 1, 1, 1, 1, 1, 1, 0, 0⟩ (heaveDisp 1) 2 +
          GravityForce ⟨1, 1, 1, 1, 1, 1, 1, 0, 0⟩ (heaveDisp 1) 2 < 0 :=
  C7_hydrostatic_restoring_opposes_heave ⟨1, 1, 1, 1, 1, 1, 1, 0, 0⟩
    (by norm_num) (by norm_num) (by norm_num) (by norm_num) 1 (by norm_num)

/-- Modelled from the spec: ViscousDragForce, quadratic sign-preserving drag
per DOF from the configured drag coefficients m_Cd and reference areas
m_Area (spec section 4.3). -/
def ViscousDragForce (m_rho : ℚ) (m_Cd m_Area : Fin 6 → ℚ) (xdot : Fin 6 → ℚ) :
    Fin 6 → ℚ :=
  fun i => -(m_rho * m_Cd i * m_Area i * |xdot i| * xdot i) / 2

/-- Modelled from the spec: LinearDampingForce, per-DOF linear coefficient
m_b times velocity, opposing the velocity (spec section 4.3). -/
def LinearDampingForce (m_b : Fin 6 → ℚ) (xdot : Fin 6 → ℚ) : Fin 6 → ℚ :=
  fun i => -(m_b i * xdot i)

/-- The position block of the 12-entry state vector: entries 0..5. -/
def posPart (x : Fin 12 → ℚ) : Fin 6 → ℚ :=
  fun i => x ⟨i.1, by have := i.2; omega⟩

/-- The velocity block of the 12-entry state vector: entries 6..11. -/
def velPart (x : Fin 12 → ℚ) : Fin 6 → ℚ :=
  fun i => x ⟨i.1 + 6, by have := i.2; omega⟩

/-- Index of position/velocity entry i within the 12-entry state vector. -/
def lowIdx (i : Fin 6) : Fin 12 := ⟨i.1, by have := i.2; omega⟩

/-- Index of acceleration entry i within the 12-entry derivative vector. -/
def highIdx (i : Fin 6) : Fin 12 := ⟨i.1 + 6, by have := i.2; omega⟩

/-- Modelled from the spec: the generalized force summed by the right-hand
side, F_hydrostatic and F_buoyancy (BuoyancyForce and GravityForce about
equilibrium), F_drag, F_damping, F_radiation from the stored acceleration
history, and F_exciting from the stored wave-elevation history. -/
def totalForce (cfg : HydroConfig) (m_b m_Cd m_Area : Fin 6 → ℚ)
    (radK : Fin 6 → Fin 6 → List ℚ) (excK : Fin 6 → List ℚ)
    (m_xddot : Fin 6 → List ℚ) (_eta0 : List ℚ) (dt : ℚ)
    (x v : Fin 6 → ℚ) : Fin 6 → ℚ :=
  fun i =>
    BuoyancyForce cfg x i + GravityForce cfg x i +
      ViscousDragForce cfg.m_rho m_Cd m_Area v i + LinearDampingForce m_b v i +
      RadiationForce radK m_xddot dt i + ExcitingForce excK _eta0 dt i

/-- Modelled from the spec: operator(), the Right-Hand-Side Functor
(FS_Hydrodynamics.cpp absent from src/): the first 6 entries of dxdt are
the velocity entries of x passed through unchanged, the last 6 solve
M xddot = total force, with the radiation term read from the stored
previous-step acceleration history m_xddot, never from the acceleration
being solved for (spec section 4.4). -/
noncomputable def operatorRHS (M : Matrix (Fin 6) (Fin 6) ℚ) (cfg : HydroConfig)
    (m_b m_Cd m_Area : Fin 6 → ℚ)
    (radK : Fin 6 → Fin 6 → List ℚ) (excK : Fin 6 → List ℚ)
    (m_xddot : Fin 6 → List ℚ) (_eta0 : List ℚ) (dt : ℚ)
    (x : Fin 12 → ℚ) : Fin 12 → ℚ :=
  fun k =>
    if hk : k.1 < 6 then x ⟨k.1 + 6, by omega⟩
    else
      (M⁻¹).mulVec
        (totalForce cfg m_b m_Cd m_Area radK excK m_xddot _eta0 dt
          (posPart x) (velPart x))
        ⟨k.1 - 6, by have := k.2; omega⟩

/-- C2: for every state vector x (6 positions plus 6 velocities), the
right-hand-side functor writes the velocity entries of x through unchanged
into the first 6 entries of dxdt, and its last 6 entries are accelerations
solving M xddot = F_hydrostatic + F_buoyancy + F_drag + F_damping +
F_radiation + F_exciting, where the radiation term is computed from the
stored previous-step acceleration history m_xddot, not from the
acceleration being solved for. -/
theorem C2_rhs_velocities_pass_through_and_accelerations_solve
    (M : Matrix (Fin 6) (Fin 6) ℚ) (cfg : HydroConfig)
    (m_b m_Cd m_Area : Fin 6 → ℚ)
    (radK : Fin 6 → Fin 6 → List ℚ) (excK : Fin 6 → List ℚ)
    (m_xddot : Fin 6 → List ℚ) (_eta0 : List ℚ) (dt : ℚ)
    (x : Fin 12 → ℚ) (i : Fin 6) (hM : IsUnit M.det) :
    operatorRHS M cfg m_b m_Cd m_Area radK excK m_xddot _eta0 dt x (lowIdx i) =
        velPart x i ∧
      M.mulVec
          (fun r : Fin 6 =>
            operatorRHS M cfg m_b m_Cd m_Area radK excK m_xddot _eta0 dt x
              (highIdx r)) i =
        totalForce cfg m_b m_Cd m_Area radK excK m_xddot _eta0 dt
          (posPart x) (velPart x) i := by
  constructor
  · show dite _ _ _ = _
    rw [dif_pos (show (lowIdx i).1 < 6 from i.2)]
    rfl
  · have key : (fun r : Fin 6 =>
        operatorRHS M cfg m_b m_Cd m_Area radK excK m_xddot _eta0 dt x
          (highIdx r)) =
        (M⁻¹).mulVec
          (totalForce cfg m_b m_Cd m_Area radK excK m_xddot _eta0 dt
            (posPart x) (velPart x)) := by
      funext r
      show dite _ _ _ = _
      rw [dif_neg (show ¬ (highIdx r).1 < 6 by simp [highIdx])]
      congr 1
    rw [key, Matrix.mulVec_mulVec, Matrix.mul_nonsing_inv M hM, Matrix.one_mulVec]

/-- C2 witness: the identity mass matrix, a unit configuration, empty
kernels and histories and the zero state vector. -/
theorem C2_rhs_functor_witness :
    operatorRHS 1 ⟨1, 1, 1, 1, 1, 1, 1, 0, 0⟩ (fun _ => 0) (fun _ => 0) (fun _ => 0)
          (fun _ _ => []) (fun _ => []) (fun _ => []) [] 1 (fun _ => 0) (lowIdx 0) =
        velPart (fun _ => 0) 0 ∧
      (1 : Matrix (Fin 6) (Fin 6) ℚ).mulVec
          (fun r : Fin 6 =>
            operatorRHS 1 ⟨1, 1, 1, 1, 1, 1, 1, 0, 0⟩ (fun _ => 0) (fun _ => 0)
              (fun _ => 0) (fun _ _ => []) (fun _ => []) (fun _ => []) [] 1
              (fun _ => 0) (highIdx r)) 0 =
        totalForce ⟨1, 1, 1, 1, 1, 1, 1, 0, 0⟩ (fun _ => 0) (fun _ => 0) (fun _ => 0)
          (fun _ _ => []) (fun _ => []) (fun _ => []) [] 1
          (posPart fun _ => 0) (velPart fun _ => 0) 0 :=
  C2_rhs_velocities_pass_through_and_accelerations_solve 1 ⟨1, 1, 1, 1, 1, 1, 1, 0, 0⟩
    (fun _ => 0) (fun _ => 0) (fun _ => 0) (fun _ _ => []) (fun _ => [])
    (fun _ => []) [] 1 (fun _ => 0) 0 (by simp)

end FSHydro
